import Mathlib

/-!
# Verification of the ArithmeticTree controller (`mult.py`)

Shallow embedding of the controller script `mult.py`.  Conventions:

* A text file is a `List String`, one entry per line, *without* the trailing
  newline character (Python's `for line in fopen` yields lines with a trailing
  `"\n"`; every operation the script performs on a line — `strip`, `split`,
  `startswith`, copying the line verbatim — is invariant under carrying the
  terminator, so dropping it is harmless and uniform).
* Python string helpers (`str.strip`, `str.split("\t")`, `str.startswith`,
  `"2" in line`) are re-implemented structurally over `String.data` so that
  the kernel can evaluate them on concrete inputs.
* Python `float` parsing and arithmetic are modelled over `ℚ`: the selector
  is parametric in a `parse : String → Option ℚ` function standing for
  `float(·)` (raising `ValueError` ↦ `none`); `float("inf")` becomes the
  `none` case of an `Option ℚ` running best.
* The filesystem is a map from paths to file contents; `os.path.join(d, f)`
  is modelled as the pair `(d, f)`.
* Exceptions: `AssertionError` (the only exception `main` catches) is
  distinguished from `IndexError`/`ValueError` (uncaught) in `SelErr`.
-/

/-! ## Python string primitives -/

/-- The whitespace characters of Python's `str.strip()` (ASCII fragment). -/
def pyIsSpace (c : Char) : Bool :=
  c = ' ' || c = '\t' || c = '\n' || c = '\r' || c = '\x0b' || c = '\x0c'

/-- `str.strip()` on a character list: drop leading and trailing whitespace. -/
def pyStripChars (cs : List Char) : List Char :=
  ((cs.dropWhile pyIsSpace).reverse.dropWhile pyIsSpace).reverse

/-- Python `line.strip()`. -/
def pyStrip (s : String) : String :=
  String.mk (pyStripChars s.data)

/-- Worker for `str.split("\t")`: splits at every tab, keeping empty pieces. -/
def pySplitAux : List Char → List Char → List (List Char)
  | [], cur => [cur.reverse]
  | c :: rest, cur =>
    if c = '\t' then cur.reverse :: pySplitAux rest []
    else pySplitAux rest (c :: cur)

/-- Python `s.split("\t")`. Always returns at least one field. -/
def pySplitTab (s : String) : List String :=
  (pySplitAux s.data []).map String.mk

/-- Python `s.startswith(pre)`. -/
def pyStartswith (pre s : String) : Bool :=
  pre.data.isPrefixOf s.data

/-- Python `c in s` for a single-character needle (`"2" in line`). -/
def pyContainsChar (c : Char) (s : String) : Bool :=
  s.data.contains c

/-- Python str() as used by an f-string on an `Optional` value:
`None` renders as `"None"`. -/
def pyStr : Option String → String
  | none => "None"
  | some s => s

/-- A concrete stand-in for Python `float(·)` restricted to strings of
decimal digits, used to instantiate the `parse` parameter on witnesses. -/
def digitVal (c : Char) : Option Nat :=
  if 48 ≤ c.toNat ∧ c.toNat ≤ 57 then some (c.toNat - 48) else none

/-- Accumulate a decimal digit string. -/
def digitsVal : List Char → Nat → Option ℚ
  | [], acc => some ((acc : ℚ))
  | c :: cs, acc =>
    match digitVal c with
    | none => none
    | some d => digitsVal cs (acc * 10 + d)

/-- Parse a nonempty all-digit string as a rational. -/
def parseNatQ (s : String) : Option ℚ :=
  if s.data.isEmpty then none else digitsVal s.data 0

/-! ## Paths (`os.path.join` model) -/

/-- A filesystem path: `os.path.join(dir, file)` modelled as the pair. -/
abbrev FPath := String × String

/-- The string a path renders to in messages (`os.path.join` with `/`). -/
def pathStr (p : FPath) : String := p.1 ++ "/" ++ p.2

/-- `BASE_DIR = "/content/ArithmeticTree"`. -/
def BASE_DIR : String := "/content/ArithmeticTree"

/-- `MULT_LOGS_DIR = os.path.join(BASE_DIR, "mult_logs")`. -/
def MULT_LOGS_DIR : String := BASE_DIR ++ "/mult_logs"

/-- `MCTS_LOGS_DIR = os.path.join(BASE_DIR, "mcts_mult_adder")`. -/
def MCTS_LOGS_DIR : String := BASE_DIR ++ "/mcts_mult_adder"

/-- PPO result-log path: `os.path.join(MULT_LOGS_DIR, f"mult_{input_bit}b_{strftime_str}.log")`. -/
def ppoLogPath (input_bit : Nat) (strftime_str : String) : FPath :=
  (MULT_LOGS_DIR, "mult_" ++ toString input_bit ++ "b_" ++ strftime_str ++ ".log")

/-- MCTS result-log path:
`os.path.join(MCTS_LOGS_DIR, f"mcts_mult_adder_{input_bit}b_openroad_{strftime_str}.log")`. -/
def mctsLogPath (input_bit : Nat) (strftime_str : String) : FPath :=
  (MCTS_LOGS_DIR, "mcts_mult_adder_" ++ toString input_bit ++ "b_openroad_" ++ strftime_str ++ ".log")

/-- Source path read by `save_mult_file`. -/
def multSourcePath (verilog_file_name : String) : FPath :=
  (BASE_DIR ++ "/run_verilog_mult_mid", verilog_file_name)

/-- Source path read by `save_adder_file`. -/
def adderSourcePath (verilog_file_name : String) : FPath :=
  (BASE_DIR ++ "/run_verilog_mult_add_mid", verilog_file_name)

/-- Destination path written by `save_mult_file`. -/
def multDestPath (strftime_str : String) : FPath :=
  (BASE_DIR ++ "/multiplier_template", "mult_template_" ++ strftime_str ++ ".v")

/-- Destination path written by `save_adder_file`. -/
def adderDestPath (strftime_str : String) : FPath :=
  (BASE_DIR ++ "/adder_template", "adder_template_" ++ strftime_str ++ ".v")

/-- The per-round key `f"{timestamp}-{i}"`. -/
def roundKey (timestamp : String) (i : Nat) : String :=
  timestamp ++ "-" ++ toString i

/-- A filesystem: maps a path to the lines of the file there, `none` when the
path does not exist. -/
abbrev FS := FPath → Option (List String)

/-- Writing (mode `"w"`, truncating) a file into a filesystem. -/
def fsWrite (fs : FS) (p : FPath) (content : List String) : FS :=
  fun q => if q = p then some content else fs q

/-! ## Log selectors (`get_best_file_from_ppo` / `get_best_file_from_mcts`) -/

/-- How a selector can fail: `notFound` is the `AssertionError` raised by the
`assert os.path.exists(...)` (caught by `main`); `malformed` is the
`IndexError`/`ValueError` raised while indexing/`float`-ing the fields of a
record (caught by nobody). -/
inductive SelErr where
  | notFound (msg : String)
  | malformed
deriving DecidableEq

/-- The score of one split record:
`float(parts[1]) + float(parts[2])*area_w + float(parts[3]) + float(parts[4])*area_w`;
`none` models the `IndexError` (fewer than 5 fields) or `ValueError`
(unparseable field) this expression can raise. -/
def lineScore (parse : String → Option ℚ) (area_w : ℚ) (parts : List String) : Option ℚ :=
  match parts.get? 1, parts.get? 2, parts.get? 3, parts.get? 4 with
  | some p1, some p2, some p3, some p4 =>
    match parse p1, parse p2, parse p3, parse p4 with
    | some m1, some m2, some m3, some m4 => some (m1 + m2 * area_w + m3 + m4 * area_w)
    | _, _, _, _ => none
  | _, _, _, _ => none

/-- Score of a whole raw log line (strip, split on tab, score). -/
def lineScoreOf (parse : String → Option ℚ) (area_w : ℚ) (line : String) : Option ℚ :=
  lineScore parse area_w (pySplitTab (pyStrip line))

/-- The score as a total function (defaulted), used only under a
well-formedness hypothesis making the default unreachable. -/
def scoreD (parse : String → Option ℚ) (area_w : ℚ) (line : String) : ℚ :=
  (lineScoreOf parse area_w line).getD 0

/-- The identifier field `parts[0]` of a raw line. -/
def idOf (line : String) : String :=
  (pySplitTab (pyStrip line)).headD ""

/-- The stripped raw record of a line. -/
def rawOf (line : String) : String := pyStrip line

/-- `score < best_score` where `best_score` starts as `float("inf")`
(modelled by `none`). -/
def ltInf (score : ℚ) : Option ℚ → Bool
  | none => true
  | some best => decide (score < best)

/-- The line-scanning loop of `get_best_file_from_ppo`: tracks
`best_score` / `best_verilog_file` / `best_data_line`, updating on a strict
improvement; `Except.error ()` models the uncaught exception on a malformed
record. -/
def ppoScan (parse : String → Option ℚ) (area_w : ℚ) :
    List String → Option ℚ → Option String → Option String →
    Except Unit (Option String × Option String)
  | [], _, best_verilog_file, best_data_line => Except.ok (best_verilog_file, best_data_line)
  | line :: rest, best_score, best_verilog_file, best_data_line =>
    let raw_line := pyStrip line
    let parts := pySplitTab raw_line
    match lineScore parse area_w parts with
    | none => Except.error ()
    | some score =>
      if ltInf score best_score then
        ppoScan parse area_w rest (some score) (some (parts.headD "")) (some raw_line)
      else
        ppoScan parse area_w rest best_score best_verilog_file best_data_line

/-- The identical scanning loop of `get_best_file_from_mcts` (the source
duplicates the code verbatim). -/
def mctsScan (parse : String → Option ℚ) (area_w : ℚ) :
    List String → Option ℚ → Option String → Option String →
    Except Unit (Option String × Option String)
  | [], _, best_verilog_file, best_data_line => Except.ok (best_verilog_file, best_data_line)
  | line :: rest, best_score, best_verilog_file, best_data_line =>
    let raw_line := pyStrip line
    let parts := pySplitTab raw_line
    match lineScore parse area_w parts with
    | none => Except.error ()
    | some score =>
      if ltInf score best_score then
        mctsScan parse area_w rest (some score) (some (parts.headD "")) (some raw_line)
      else
        mctsScan parse area_w rest best_score best_verilog_file best_data_line

/-- `get_best_file_from_ppo(strftime_str, input_bit)`: asserts the log file
exists, then scans it for the strictly-best-scoring record. -/
def get_best_file_from_ppo (parse : String → Option ℚ) (area_w : ℚ) (fs : FS)
    (strftime_str : String) (input_bit : Nat) :
    Except SelErr (Option String × Option String) :=
  match fs (ppoLogPath input_bit strftime_str) with
  | none => Except.error (SelErr.notFound
      ("[ERROR] " ++ pathStr (ppoLogPath input_bit strftime_str) ++ " does not exist."))
  | some lines =>
    match ppoScan parse area_w lines none none none with
    | Except.error _ => Except.error SelErr.malformed
    | Except.ok r => Except.ok r

/-- `get_best_file_from_mcts(strftime_str, input_bit)`: same shape over the
MCTS log path. -/
def get_best_file_from_mcts (parse : String → Option ℚ) (area_w : ℚ) (fs : FS)
    (strftime_str : String) (input_bit : Nat) :
    Except SelErr (Option String × Option String) :=
  match fs (mctsLogPath input_bit strftime_str) with
  | none => Except.error (SelErr.notFound
      ("[ERROR] " ++ pathStr (mctsLogPath input_bit strftime_str) ++ " does not exist."))
  | some lines =>
    match mctsScan parse area_w lines none none none with
    | Except.error _ => Except.error SelErr.malformed
    | Except.ok r => Except.ok r

/-! ## Template extractors (`save_mult_file` / `save_adder_file`) -/

/-- The line filter of `save_mult_file`: copy lines until (excluding) the
first line that *starts with* `"module adder(a,b,s);"`, then stop. -/
def save_mult_file_lines : List String → List String
  | [] => []
  | line :: rest =>
    if !(pyStartswith "module adder(a,b,s);" line) then
      line :: save_mult_file_lines rest
    else
      []

/-- `save_mult_file(verilog_file_name, strftime_str)` acting on a filesystem:
reads the source (raising, i.e. `none`, when absent) and writes the filtered
content to the deterministic destination path. -/
def save_mult_run (fs : FS) (verilog_file_name strftime_str : String) : Option FS :=
  match fs (multSourcePath verilog_file_name) with
  | none => none
  | some src => some (fsWrite fs (multDestPath strftime_str) (save_mult_file_lines src))

/-- The line filter of `save_adder_file`: the interleaved scan with the
comment counter `cnt` and the `find_adder` flag, transcribed from the source. -/
def save_adder_file_lines (input_bit : Nat) : List String → Nat → Bool → List String
  | [], _, _ => []
  | line :: rest, cnt, find_adder =>
    if !(pyStartswith "//" line) then
      let fa := find_adder || pyStartswith "module adder(a,b,s);" line
      if fa then
        line :: save_adder_file_lines input_bit rest cnt fa
      else
        save_adder_file_lines input_bit rest cnt fa
    else
      if pyContainsChar '2' line then
        save_adder_file_lines input_bit rest cnt find_adder
      else
        if cnt < input_bit then
          line :: save_adder_file_lines input_bit rest (cnt + 1) find_adder
        else
          save_adder_file_lines input_bit rest cnt find_adder

/-! ## The controller (`main`) -/

/-- One line of the run log (`flog`). Elapsed-time text (produced by
`time.time()` and `:.2f` formatting, external to the core) is carried as an
opaque string payload. -/
inductive LogLine where
  | iter (i : Nat) (elapsed : String)
  | ppoWin (data_line : String)
  | mctsWin (data_line : String)
  | ppoErr (i : Nat) (output : String)
  | mctsErr (i : Nat) (output : String)
  | assertMsg (msg : String)
  | total (elapsed : String)
deriving DecidableEq

/-- The exact text each run-log line is written as (the f-strings of `main`,
including the trailing newline of each `flog.write`). -/
def LogLine.text : LogLine → String
  | .iter i elapsed => "Iteration " ++ toString i ++ ", Time elapsed: " ++ elapsed ++ " seconds\n"
  | .ppoWin data_line => "PPO:\t" ++ data_line ++ "\n"
  | .mctsWin data_line => "MCTS\t" ++ data_line ++ "\n"
  | .ppoErr i output =>
      "[ERROR] PPO2_mult.py failed during iteration " ++ toString i ++ ".\nOutput:\n" ++ output ++ "\n"
  | .mctsErr i output =>
      "[ERROR] MCTS_mult.py failed during iteration " ++ toString i ++ ".\nOutput:\n" ++ output ++ "\n"
  | .assertMsg msg => msg ++ "\n"
  | .total elapsed => "Total Time Elapsed: " ++ elapsed ++ " seconds\n"

/-- External effects of one run: stage invocations and template-file writes. -/
inductive Ev where
  | runPPO (i : Nat) (template : Option String)
  | runMCTS (i : Nat) (template : String) (init_state : Bool)
  | writeMult (name : String) (content : List String)
  | writeAdder (name : String) (content : List String)
deriving DecidableEq

/-- Result of one loop iteration: continue with the adder template name,
`break` out of the loop, or die on an uncaught exception. -/
inductive StepRes where
  | cont (template_adder_name : String)
  | halt
  | crash
deriving DecidableEq

/-- The environment `main` runs against: the observable filesystem (result
logs and candidate Verilog sources, each read at most once), the outcomes of
the two external jobs per round, the `float` parser, and the opaque
formatted-time strings. -/
structure Env where
  fs : FS
  ppoJob : Nat → Bool × String
  mctsJob : Nat → Bool × String
  parse : String → Option ℚ
  timestamp : String
  iterTime : Nat → String
  totalTime : String

/-- The result of a run: run-log lines, external events, and whether the
process died on an uncaught exception (in which case the final
total-time line was never written). -/
structure RunOut where
  log : List LogLine
  evs : List Ev
  crash : Bool
deriving DecidableEq

/-- One iteration of the `for i in range(total_times)` body of `main`,
transcribed in order: iteration header, PPO invocation (with `--template`
only when `i > 0`), PPO failure check, PPO log selection (only
`AssertionError` caught), `"PPO:\t…"` line, `save_mult_file` (uncaught
`TypeError`/`FileNotFoundError` when the winner or its file is missing),
MCTS invocation (with `--init_state` when `i > 0`), MCTS failure check,
MCTS selection, `"MCTS\t…"` line, `save_adder_file`. -/
def doRound (env : Env) (input_bit : Nat) (area_w : ℚ) (i : Nat) (prev : Option String) :
    List LogLine × List Ev × StepRes :=
  let key := roundKey env.timestamp i
  let lg0 := [LogLine.iter i (env.iterTime i)]
  let ev0 := [Ev.runPPO i (if i > 0 then prev else none)]
  match env.ppoJob i with
  | (false, ppo_output) => (lg0 ++ [LogLine.ppoErr i ppo_output], ev0, StepRes.halt)
  | (true, _) =>
    match get_best_file_from_ppo env.parse area_w env.fs key input_bit with
    | Except.error (SelErr.notFound msg) => (lg0 ++ [LogLine.assertMsg msg], ev0, StepRes.halt)
    | Except.error SelErr.malformed => (lg0, ev0, StepRes.crash)
    | Except.ok (verilog_file_name, data_line) =>
      let lg1 := lg0 ++ [LogLine.ppoWin (pyStr data_line)]
      match verilog_file_name with
      | none => (lg1, ev0, StepRes.crash)
      | some vf =>
        match env.fs (multSourcePath vf) with
        | none => (lg1, ev0, StepRes.crash)
        | some src =>
          let template_mult_name := "mult_template_" ++ key ++ ".v"
          let ev1 := ev0 ++ [Ev.writeMult template_mult_name (save_mult_file_lines src),
                             Ev.runMCTS i template_mult_name (decide (i > 0))]
          match env.mctsJob i with
          | (false, mcts_output) => (lg1 ++ [LogLine.mctsErr i mcts_output], ev1, StepRes.halt)
          | (true, _) =>
            match get_best_file_from_mcts env.parse area_w env.fs key (input_bit * 2) with
            | Except.error (SelErr.notFound msg) => (lg1 ++ [LogLine.assertMsg msg], ev1, StepRes.halt)
            | Except.error SelErr.malformed => (lg1, ev1, StepRes.crash)
            | Except.ok (verilog_file_name2, data_line2) =>
              let lg2 := lg1 ++ [LogLine.mctsWin (pyStr data_line2)]
              match verilog_file_name2 with
              | none => (lg2, ev1, StepRes.crash)
              | some vf2 =>
                match env.fs (adderSourcePath vf2) with
                | none => (lg2, ev1, StepRes.crash)
                | some src2 =>
                  let template_adder_name := "adder_template_" ++ key ++ ".v"
                  (lg2,
                   ev1 ++ [Ev.writeAdder template_adder_name
                             (save_adder_file_lines (input_bit * 2) src2 0 false)],
                   StepRes.cont template_adder_name)

/-- The loop over the remaining iterations.  `i` is the value the `for` loop
rebinds at each entry (the `i += 1` at the end of the Python body is dead:
`range` rebinding overwrites it).  A `break` ends the loop normally, a crash
aborts the whole run. -/
def runRounds (env : Env) (input_bit : Nat) (area_w : ℚ) :
    Nat → Nat → Option String → List LogLine × List Ev × Bool
  | 0, _, _ => ([], [], false)
  | n + 1, i, prev =>
    match doRound env input_bit area_w i prev with
    | (lg, ev, StepRes.halt) => (lg, ev, false)
    | (lg, ev, StepRes.crash) => (lg, ev, true)
    | (lg, ev, StepRes.cont a) =>
      let r := runRounds env input_bit area_w n (i + 1) (some a)
      (lg ++ r.1, ev ++ r.2.1, r.2.2)

/-- `main()`: `total_times = 3` rounds starting at `i = 0` with no previous
adder template; unless the run crashed, the final total-time line is written. -/
def pymain (env : Env) (input_bit : Nat) (area_w : ℚ) : RunOut :=
  let r := runRounds env input_bit area_w 3 0 none
  if r.2.2 then ⟨r.1, r.2.1, true⟩
  else ⟨r.1 ++ [LogLine.total env.totalTime], r.2.1, false⟩

/-- The iteration keys of the PPO stage invocations, in order. -/
def ppoIdxs (evs : List Ev) : List Nat :=
  evs.filterMap (fun e => match e with | Ev.runPPO i _ => some i | _ => none)

/-- A round in which every external interaction succeeds: both jobs exit 0,
both selectors succeed with an actual winner, and both winners' source files
exist. -/
def RoundOK (env : Env) (input_bit : Nat) (area_w : ℚ) (i : Nat) : Prop :=
  (env.ppoJob i).1 = true ∧
  (env.mctsJob i).1 = true ∧
  (∃ f d, get_best_file_from_ppo env.parse area_w env.fs (roundKey env.timestamp i) input_bit =
            Except.ok (some f, some d) ∧
          (env.fs (multSourcePath f)).isSome = true) ∧
  (∃ f d, get_best_file_from_mcts env.parse area_w env.fs (roundKey env.timestamp i) (input_bit * 2) =
            Except.ok (some f, some d) ∧
          (env.fs (adderSourcePath f)).isSome = true)

/-! ## Claim-side renderings (used to compare spec wording with the code) -/

/-- Rendering of claim C3's words: copy the source verbatim up to but **not
including** the first line that *exactly matches* the adder-module marker
(the code instead tests `startswith`). -/
def multClaimContent (src : List String) : List String :=
  src.takeWhile (fun line => line ≠ "module adder(a,b,s);")

/-- A comment line that the adder extractor may copy: starts with `//` and
does not contain the character `2`. -/
def keepableComment (line : String) : Bool :=
  pyStartswith "//" line && !(pyContainsChar '2' line)

/-- A line beginning with the adder-module marker. -/
def isMarkerLine (line : String) : Bool :=
  pyStartswith "module adder(a,b,s);" line

/-- Rendering of claim C2's per-line policy, decided positionally from the
prefix `pre` of lines already scanned: a comment with `2` is always dropped;
a comment without `2` is kept iff fewer than `input_bit` such comments were
already kept; a non-comment line is kept iff the marker occurs at or before
it. -/
def adderClaimKeep (input_bit : Nat) (pre : List String) (line : String) : Bool :=
  if pyStartswith "//" line then
    if pyContainsChar '2' line then false
    else decide (pre.countP keepableComment < input_bit)
  else
    pre.any isMarkerLine || isMarkerLine line

/-- Filter a file by `adderClaimKeep`, threading the scanned prefix. -/
def adderClaimGo (input_bit : Nat) (pre : List String) : List String → List String
  | [] => []
  | line :: rest =>
    (if adderClaimKeep input_bit pre line then [line] else []) ++
      adderClaimGo input_bit (pre ++ [line]) rest

/-- The selection claim C2 describes, over a whole file. -/
def adderClaimSelection (input_bit : Nat) (src : List String) : List String :=
  adderClaimGo input_bit [] src

/-! ## Concrete demonstration data (used by witnesses and counterexamples) -/

/-- A tiny well-formed result log: the minimum score is attained by records 2
and 3 (tie), so the selector must keep the earlier `b.v`. -/
def demoLog : List String :=
  ["a.v\t3\t0\t0\t0", "b.v\t1\t0\t0\t0", "c.v\t1\t0\t0\t0"]

/-- A filesystem holding `demoLog` at every path. -/
def demoFS : FS := fun _ => some demoLog

/-- A small Verilog-like source file for the template extractors. -/
def demoSrcLines : List String :=
  ["line1", "module adder(a,b,s);", "line3"]

/-- A filesystem holding `demoSrcLines` at every path. -/
def demoSrcFS : FS := fun _ => some demoSrcLines

/-- The filesystem after one `save_mult_file` run on `demoSrcFS`. -/
def demoWritten : FS :=
  fsWrite demoSrcFS (multDestPath "k") (save_mult_file_lines demoSrcLines)

/-- A one-record log that every selector run selects. -/
def demoGood : List String := ["f.v\t1\t1\t1\t1"]

/-- An environment in which every round succeeds end to end. -/
def envGood : Env :=
  ⟨fun _ => some demoGood, fun _ => (true, ""), fun _ => (true, ""),
   parseNatQ, "ts", fun _ => "0.00", "9.99"⟩

/-- An environment whose PPO result log holds one malformed record. -/
def envBadLog : Env :=
  ⟨fun _ => some ["badline"], fun _ => (true, ""), fun _ => (true, ""),
   parseNatQ, "ts", fun _ => "0.00", "9.99"⟩

/-- An environment whose result logs exist but are empty. -/
def envEmptyLog : Env :=
  ⟨fun _ => some [], fun _ => (true, ""), fun _ => (true, ""),
   parseNatQ, "ts", fun _ => "0.00", "9.99"⟩

/-- An environment with no files at all. -/
def envNoLog : Env :=
  ⟨fun _ => none, fun _ => (true, ""), fun _ => (true, ""),
   parseNatQ, "ts", fun _ => "0.00", "9.99"⟩

/-- An environment whose stage-1 job fails (exit status 1) on every round. -/
def envFailPPO : Env :=
  ⟨fun _ => none, fun _ => (false, "boom"), fun _ => (true, ""),
   parseNatQ, "ts", fun _ => "0.00", "9.99"⟩

/-! ## Basic equations and helper lemmas -/

/-- Unfolding equation of `ppoScan` on a cons cell, phrased through
`lineScoreOf`/`idOf`/`rawOf`. -/
theorem ppoScan_cons (parse : String → Option ℚ) (area_w : ℚ) (line : String)
    (rest : List String) (bs : Option ℚ) (bf bl : Option String) :
    ppoScan parse area_w (line :: rest) bs bf bl =
      match lineScoreOf parse area_w line with
      | none => Except.error ()
      | some score =>
        if ltInf score bs then
          ppoScan parse area_w rest (some score) (some (idOf line)) (some (rawOf line))
        else
          ppoScan parse area_w rest bs bf bl := rfl

/-- Unfolding equation of `mctsScan` on a cons cell. -/
theorem mctsScan_cons (parse : String → Option ℚ) (area_w : ℚ) (line : String)
    (rest : List String) (bs : Option ℚ) (bf bl : Option String) :
    mctsScan parse area_w (line :: rest) bs bf bl =
      match lineScoreOf parse area_w line with
      | none => Except.error ()
      | some score =>
        if ltInf score bs then
          mctsScan parse area_w rest (some score) (some (idOf line)) (some (rawOf line))
        else
          mctsScan parse area_w rest bs bf bl := rfl

/-- The two scanning loops are the same function: the source duplicates the
loop body of `get_best_file_from_ppo` verbatim in `get_best_file_from_mcts`. -/
theorem ppoScan_eq_mctsScan (parse : String → Option ℚ) (area_w : ℚ) :
    ∀ (lines : List String) (bs : Option ℚ) (bf bl : Option String),
      ppoScan parse area_w lines bs bf bl = mctsScan parse area_w lines bs bf bl := by
  intro lines
  induction lines with
  | nil => intro bs bf bl; rfl
  | cons line rest ih =>
    intro bs bf bl
    rw [ppoScan_cons, mctsScan_cons]
    cases h : lineScoreOf parse area_w line with
    | none => rfl
    | some score =>
      by_cases hlt : ltInf score bs
      · simp only [hlt, if_true, ih]
      · simp only [hlt, if_false, ih]

/-- A line starting with `//` cannot start with the adder-module marker. -/
theorem comment_not_marker (line : String) (h : pyStartswith "//" line = true) :
    isMarkerLine line = false := by
  unfold pyStartswith at h
  unfold isMarkerLine pyStartswith
  rcases hd : line.data with _ | ⟨c, cs⟩
  · rw [hd] at h
    exact absurd h (by decide)
  · rw [hd] at h
    have e2 : "//".data = ['/', '/'] := rfl
    rw [e2] at h
    simp only [List.isPrefixOf, Bool.and_eq_true, beq_iff_eq] at h
    have hc : c = '/' := h.1.symm
    have e3 : "module adder(a,b,s);".data = 'm' :: "odule adder(a,b,s);".data := rfl
    rw [e3, hc]
    simp [List.isPrefixOf]

/-- `save_mult_file` keeps exactly the prefix of lines not starting with the
marker. -/
theorem save_mult_file_lines_eq_takeWhile (src : List String) :
    save_mult_file_lines src =
      src.takeWhile (fun line => !(pyStartswith "module adder(a,b,s);" line)) := by
  induction src with
  | nil => rfl
  | cons line rest ih =>
    unfold save_mult_file_lines
    by_cases h : pyStartswith "module adder(a,b,s);" line
    · simp [h, List.takeWhile]
    · simp only [Bool.eq_false_iff, ne_eq] at h
      simp [List.takeWhile, Bool.not_eq_true, eq_false_of_ne_true h, ih]

/-- The source and destination paths of `save_mult_file` always differ (they
live in different directories). -/
theorem multSourcePath_ne_multDestPath (name key : String) :
    multSourcePath name ≠ multDestPath key := by
  intro h
  have h1 := congrArg Prod.fst h
  simp only [multSourcePath, multDestPath] at h1
  exact absurd h1 (by decide)

/-- Re-running `save_mult_file` with the same source name and round key
overwrites the destination with identical content: the filesystem is
unchanged by the second run. -/
theorem save_mult_run_overwrite (fs : FS) (name key : String) (fs' : FS)
    (h : save_mult_run fs name key = some fs') :
    save_mult_run fs' name key = some fs' := by
  unfold save_mult_run at h ⊢
  cases hsrc : fs (multSourcePath name) with
  | none => rw [hsrc] at h; exact absurd h (by simp)
  | some src =>
    rw [hsrc] at h
    simp only [Option.some.injEq] at h
    subst h
    have hne := multSourcePath_ne_multDestPath name key
    have hsrc' : fsWrite fs (multDestPath key) (save_mult_file_lines src)
        (multSourcePath name) = some src := by
      unfold fsWrite; rw [if_neg hne]; exact hsrc
    simp only [hsrc']
    congr 1
    funext q
    unfold fsWrite
    by_cases hq : q = multDestPath key
    · simp [hq]
    · simp [hq]

/-- Unfolding of the adder extractor on a comment line. -/
theorem save_adder_cons_comment (input_bit : Nat) (line : String) (rest : List String)
    (cnt : Nat) (find_adder : Bool) (hcl : pyStartswith "//" line = true) :
    save_adder_file_lines input_bit (line :: rest) cnt find_adder =
      if pyContainsChar '2' line then
        save_adder_file_lines input_bit rest cnt find_adder
      else if cnt < input_bit then
        line :: save_adder_file_lines input_bit rest (cnt + 1) find_adder
      else
        save_adder_file_lines input_bit rest cnt find_adder := by
  simp only [save_adder_file_lines, hcl, Bool.not_true, Bool.false_eq_true, if_false]

/-- Unfolding of the adder extractor on a non-comment line. -/
theorem save_adder_cons_noncomment (input_bit : Nat) (line : String) (rest : List String)
    (cnt : Nat) (find_adder : Bool) (hcl : pyStartswith "//" line = false) :
    save_adder_file_lines input_bit (line :: rest) cnt find_adder =
      if (find_adder || isMarkerLine line) then
        line :: save_adder_file_lines input_bit rest cnt (find_adder || isMarkerLine line)
      else
        save_adder_file_lines input_bit rest cnt (find_adder || isMarkerLine line) := by
  simp only [save_adder_file_lines, hcl, Bool.not_false, if_true, isMarkerLine]

/-- Unfolding of the claim-C2 selection on a cons cell. -/
theorem adderClaimGo_cons (input_bit : Nat) (pre : List String) (line : String)
    (rest : List String) :
    adderClaimGo input_bit pre (line :: rest) =
      (if adderClaimKeep input_bit pre line then [line] else []) ++
        adderClaimGo input_bit (pre ++ [line]) rest := rfl

/-- Invariant lemma for the adder extractor: after scanning the prefix `pre`,
the counter equals the number of kept-able comments seen capped at
`input_bit`, and the flag equals "marker seen"; under that invariant the
implementation computes the positional selection of claim C2. -/
theorem save_adder_invariant (input_bit : Nat) :
    ∀ (src pre : List String) (cnt : Nat),
      cnt = min (pre.countP keepableComment) input_bit →
      save_adder_file_lines input_bit src cnt (pre.any isMarkerLine) =
        adderClaimGo input_bit pre src := by
  intro src
  induction src with
  | nil => intro pre cnt _; rfl
  | cons line rest ih =>
    intro pre cnt hcnt
    cases hcl : pyStartswith "//" line with
    | true =>
      have hm : isMarkerLine line = false := comment_not_marker line hcl
      have hany : (pre ++ [line]).any isMarkerLine = pre.any isMarkerLine := by
        simp [List.any_append, hm]
      rw [save_adder_cons_comment input_bit line rest cnt _ hcl, adderClaimGo_cons]
      cases h2 : pyContainsChar '2' line with
      | true =>
        have hk : keepableComment line = false := by
          simp [keepableComment, hcl, h2]
        have hpre : (pre ++ [line]).countP keepableComment = pre.countP keepableComment := by
          simp [List.countP_append, List.countP_cons, hk]
        have hrec := ih (pre ++ [line]) cnt (by rw [hpre]; exact hcnt)
        rw [hany] at hrec
        simp only [adderClaimKeep, hcl, h2, if_true, Bool.false_eq_true, if_false,
          List.nil_append]
        exact hrec
      | false =>
        have hk : keepableComment line = true := by
          simp [keepableComment, hcl, h2]
        have hpre : (pre ++ [line]).countP keepableComment =
            pre.countP keepableComment + 1 := by
          simp [List.countP_append, List.countP_cons, hk]
        simp only [adderClaimKeep, hcl, h2, if_true, Bool.false_eq_true, if_false]
        by_cases hlt : pre.countP keepableComment < input_bit
        · have hclt : cnt < input_bit := by omega
          have hd : decide (pre.countP keepableComment < input_bit) = true :=
            decide_eq_true hlt
          have hrec := ih (pre ++ [line]) (cnt + 1) (by rw [hpre]; omega)
          rw [hany] at hrec
          simp only [hd, if_pos hclt, if_true, List.singleton_append]
          exact congrArg (line :: ·) hrec
        · have hclt : ¬(cnt < input_bit) := by omega
          have hd : decide (pre.countP keepableComment < input_bit) = false :=
            decide_eq_false hlt
          have hrec := ih (pre ++ [line]) cnt (by rw [hpre]; omega)
          rw [hany] at hrec
          simp only [hd, if_neg hclt, Bool.false_eq_true, if_false, List.nil_append]
          exact hrec
    | false =>
      have hk : keepableComment line = false := by
        simp [keepableComment, hcl]
      have hpre : (pre ++ [line]).countP keepableComment = pre.countP keepableComment := by
        simp [List.countP_append, List.countP_cons, hk]
      have hany : (pre ++ [line]).any isMarkerLine =
          (pre.any isMarkerLine || isMarkerLine line) := by
        simp [List.any_append]
      rw [save_adder_cons_noncomment input_bit line rest cnt _ hcl, adderClaimGo_cons]
      have hrec := ih (pre ++ [line]) cnt (by rw [hpre]; exact hcnt)
      rw [hany] at hrec
      simp only [adderClaimKeep, hcl, Bool.false_eq_true, if_false]
      cases hfa : pre.any isMarkerLine || isMarkerLine line with
      | true =>
        rw [hfa] at hrec
        simp only [hfa, if_true, List.singleton_append]
        exact congrArg (line :: ·) hrec
      | false =>
        rw [hfa] at hrec
        simp only [hfa, Bool.false_eq_true, if_false, List.nil_append]
        exact hrec

/-- An improvement over `some b` means strictly below `b`. -/
theorem ltInf_some_true {x b : ℚ} (h : ltInf x (some b) = true) : x < b := by
  simpa [ltInf] using h

/-- A non-improvement over `some b` means at least `b`. -/
theorem ltInf_some_false {x b : ℚ} (h : ltInf x (some b) = false) : b ≤ x := by
  simpa [ltInf] using h

/-- If `x` improves on the running best but `y` does not, then `x < y`. -/
theorem ltInf_lt {x y : ℚ} {bs : Option ℚ} (hx : ltInf x bs = true)
    (hy : ltInf y bs = false) : x < y := by
  cases bs with
  | none => exact absurd hy (by simp [ltInf])
  | some b => exact lt_of_lt_of_le (ltInf_some_true hx) (ltInf_some_false hy)

/-- Improving on the running best is monotone downwards. -/
theorem ltInf_of_lt {x y : ℚ} {bs : Option ℚ} (hxy : x < y)
    (hy : ltInf y bs = true) : ltInf x bs = true := by
  cases bs with
  | none => rfl
  | some b => simpa [ltInf] using lt_trans hxy (ltInf_some_true hy)

/-- Characterization of the scanning loop on a fully well-formed suffix:
either no record improves on the running best and the accumulator survives,
or the loop returns the earliest record attaining the minimum score among
those improving on the running best. -/
theorem ppoScan_characterize (parse : String → Option ℚ) (area_w : ℚ) :
    ∀ (lines : List String),
      (∀ l ∈ lines, (lineScoreOf parse area_w l).isSome = true) →
      ∀ (bs : Option ℚ) (bf bl : Option String),
        (ppoScan parse area_w lines bs bf bl = Except.ok (bf, bl) ∧
          ∀ j : Fin lines.length, ltInf (scoreD parse area_w (lines.get j)) bs = false) ∨
        (∃ k : Fin lines.length,
          ppoScan parse area_w lines bs bf bl =
            Except.ok (some (idOf (lines.get k)), some (rawOf (lines.get k))) ∧
          ltInf (scoreD parse area_w (lines.get k)) bs = true ∧
          (∀ j : Fin lines.length,
            scoreD parse area_w (lines.get k) ≤ scoreD parse area_w (lines.get j)) ∧
          (∀ j : Fin lines.length, (j : Nat) < (k : Nat) →
            scoreD parse area_w (lines.get k) < scoreD parse area_w (lines.get j))) := by
  intro lines
  induction lines with
  | nil =>
    intro _ bs bf bl
    exact Or.inl ⟨rfl, fun j => j.elim0⟩
  | cons line rest ih =>
    intro hwf bs bf bl
    have hl : (lineScoreOf parse area_w line).isSome = true :=
      hwf line (List.mem_cons_self line rest)
    obtain ⟨s, hs⟩ := Option.isSome_iff_exists.mp hl
    have hsD : scoreD parse area_w line = s := by simp [scoreD, hs]
    have hwf' : ∀ l ∈ rest, (lineScoreOf parse area_w l).isSome = true :=
      fun l hm => hwf l (List.mem_cons_of_mem line hm)
    rw [ppoScan_cons]
    simp only [hs]
    cases hlt : ltInf s bs with
    | true =>
      rcases ih hwf' (some s) (some (idOf line)) (some (rawOf line)) with
        ⟨heq, hall⟩ | ⟨k, heq, hklt, hmin, hfirst⟩
      · refine Or.inr ⟨⟨0, Nat.succ_pos _⟩, ?_, ?_, ?_, ?_⟩
        · simpa using heq
        · simpa [hsD] using hlt
        · intro j
          refine Fin.cases ?_ ?_ j
          · exact le_refl _
          · intro j'
            show scoreD parse area_w line ≤ scoreD parse area_w (rest.get j')
            rw [hsD]
            exact ltInf_some_false (hall j')
        · intro j hj
          exact absurd hj (Nat.not_lt_zero _)
      · refine Or.inr ⟨k.succ, ?_, ?_, ?_, ?_⟩
        · simpa using heq
        · exact ltInf_of_lt (ltInf_some_true hklt) hlt
        · intro j
          refine Fin.cases ?_ ?_ j
          · show scoreD parse area_w (rest.get k) ≤ scoreD parse area_w line
            rw [hsD]
            exact le_of_lt (ltInf_some_true hklt)
          · intro j'
            exact hmin j'
        · intro j
          refine Fin.cases ?_ ?_ j
          · intro _
            show scoreD parse area_w (rest.get k) < scoreD parse area_w line
            rw [hsD]
            exact ltInf_some_true hklt
          · intro j' hj
            exact hfirst j' (Nat.lt_of_succ_lt_succ hj)
    | false =>
      rcases ih hwf' bs bf bl with ⟨heq, hall⟩ | ⟨k, heq, hklt, hmin, hfirst⟩
      · refine Or.inl ⟨by simpa using heq, ?_⟩
        intro j
        refine Fin.cases ?_ ?_ j
        · show ltInf (scoreD parse area_w line) bs = false
          rw [hsD]
          exact hlt
        · intro j'
          exact hall j'
      · refine Or.inr ⟨k.succ, by simpa using heq, hklt, ?_, ?_⟩
        · intro j
          refine Fin.cases ?_ ?_ j
          · show scoreD parse area_w (rest.get k) ≤ scoreD parse area_w line
            rw [hsD]
            exact le_of_lt (ltInf_lt hklt hlt)
          · intro j'
            exact hmin j'
        · intro j
          refine Fin.cases ?_ ?_ j
          · intro _
            show scoreD parse area_w (rest.get k) < scoreD parse area_w line
            rw [hsD]
            exact ltInf_lt hklt hlt
          · intro j' hj
            exact hfirst j' (Nat.lt_of_succ_lt_succ hj)

/-! ## Behaviour of one loop iteration under each outcome -/

/-- A fully successful round: both jobs succeed, both selections return a
winner, both source files exist. -/
theorem doRound_success (env : Env) (input_bit : Nat) (area_w : ℚ) (i : Nat)
    (prev : Option String) (o o2 f d f2 d2 : String) (src src2 : List String)
    (hp : env.ppoJob i = (true, o))
    (hsel : get_best_file_from_ppo env.parse area_w env.fs (roundKey env.timestamp i) input_bit =
      Except.ok (some f, some d))
    (hsrc : env.fs (multSourcePath f) = some src)
    (hm : env.mctsJob i = (true, o2))
    (hsel2 : get_best_file_from_mcts env.parse area_w env.fs (roundKey env.timestamp i)
      (input_bit * 2) = Except.ok (some f2, some d2))
    (hsrc2 : env.fs (adderSourcePath f2) = some src2) :
    doRound env input_bit area_w i prev =
      ([LogLine.iter i (env.iterTime i), LogLine.ppoWin d, LogLine.mctsWin d2],
       [Ev.runPPO i (if i > 0 then prev else none),
        Ev.writeMult ("mult_template_" ++ roundKey env.timestamp i ++ ".v")
          (save_mult_file_lines src),
        Ev.runMCTS i ("mult_template_" ++ roundKey env.timestamp i ++ ".v") (decide (i > 0)),
        Ev.writeAdder ("adder_template_" ++ roundKey env.timestamp i ++ ".v")
          (save_adder_file_lines (input_bit * 2) src2 0 false)],
       StepRes.cont ("adder_template_" ++ roundKey env.timestamp i ++ ".v")) := by
  simp [doRound, hp, hsel, hsrc, hm, hsel2, hsrc2, pyStr]

/-- A round whose PPO job exits non-zero: error line, `break`, no further
events. -/
theorem doRound_ppoFail (env : Env) (input_bit : Nat) (area_w : ℚ) (i : Nat)
    (prev : Option String) (o : String) (hp : env.ppoJob i = (false, o)) :
    doRound env input_bit area_w i prev =
      ([LogLine.iter i (env.iterTime i), LogLine.ppoErr i o],
       [Ev.runPPO i (if i > 0 then prev else none)], StepRes.halt) := by
  simp [doRound, hp]

/-- A round whose PPO log is missing: the `AssertionError` message is logged
and the loop breaks. -/
theorem doRound_notFound (env : Env) (input_bit : Nat) (area_w : ℚ) (i : Nat)
    (prev : Option String) (o msg : String) (hp : env.ppoJob i = (true, o))
    (hsel : get_best_file_from_ppo env.parse area_w env.fs (roundKey env.timestamp i) input_bit =
      Except.error (SelErr.notFound msg)) :
    doRound env input_bit area_w i prev =
      ([LogLine.iter i (env.iterTime i), LogLine.assertMsg msg],
       [Ev.runPPO i (if i > 0 then prev else none)], StepRes.halt) := by
  simp [doRound, hp, hsel]

/-- A round whose PPO log holds a malformed record: the uncaught exception
kills the run with nothing logged beyond the iteration header. -/
theorem doRound_malformed (env : Env) (input_bit : Nat) (area_w : ℚ) (i : Nat)
    (prev : Option String) (o : String) (hp : env.ppoJob i = (true, o))
    (hsel : get_best_file_from_ppo env.parse area_w env.fs (roundKey env.timestamp i) input_bit =
      Except.error SelErr.malformed) :
    doRound env input_bit area_w i prev =
      ([LogLine.iter i (env.iterTime i)],
       [Ev.runPPO i (if i > 0 then prev else none)], StepRes.crash) := by
  simp [doRound, hp, hsel]

/-- A round whose PPO selection succeeds without a winner (`None`): the
winner line is still written (as `None`), then `save_mult_file` crashes on
`os.path.join(..., None)`. -/
theorem doRound_selNone (env : Env) (input_bit : Nat) (area_w : ℚ) (i : Nat)
    (prev : Option String) (o : String) (dl : Option String)
    (hp : env.ppoJob i = (true, o))
    (hsel : get_best_file_from_ppo env.parse area_w env.fs (roundKey env.timestamp i) input_bit =
      Except.ok (none, dl)) :
    doRound env input_bit area_w i prev =
      ([LogLine.iter i (env.iterTime i), LogLine.ppoWin (pyStr dl)],
       [Ev.runPPO i (if i > 0 then prev else none)], StepRes.crash) := by
  simp [doRound, hp, hsel]

/-- Any fully-successful round continues the loop and invokes the PPO stage
exactly once, with its own index as the key. -/
theorem doRound_cont (env : Env) (input_bit : Nat) (area_w : ℚ) (i : Nat)
    (hok : RoundOK env input_bit area_w i) (prev : Option String) :
    ∃ lg evs a, doRound env input_bit area_w i prev = (lg, evs, StepRes.cont a) ∧
      ppoIdxs evs = [i] := by
  obtain ⟨hp, hm, ⟨f, d, hsel, hsrc⟩, ⟨f2, d2, hsel2, hsrc2⟩⟩ := hok
  obtain ⟨src, hsrcv⟩ := Option.isSome_iff_exists.mp hsrc
  obtain ⟨src2, hsrc2v⟩ := Option.isSome_iff_exists.mp hsrc2
  have hp2 : env.ppoJob i = (true, (env.ppoJob i).2) := by
    rw [← hp]
  have hm2 : env.mctsJob i = (true, (env.mctsJob i).2) := by
    rw [← hm]
  rw [doRound_success env input_bit area_w i prev _ _ f d f2 d2 src src2 hp2 hsel hsrcv
    hm2 hsel2 hsrc2v]
  exact ⟨_, _, _, rfl, by simp [ppoIdxs]⟩

/-- `ppoIdxs` distributes over event concatenation. -/
theorem ppoIdxs_append (a b : List Ev) : ppoIdxs (a ++ b) = ppoIdxs a ++ ppoIdxs b := by
  simp [ppoIdxs]

/-! ## Claim theorems -/

/-- C1: for every present result log in which every line splits on tabs into
at least 5 fields with fields 2–5 parseable, the selectors return the
identifier field and the whitespace-trimmed line of the record with minimum
score `m1 + m2*w + m3 + m4*w`; on ties the earliest record wins (strict
less-than against the running best).  Stated for `get_best_file_from_ppo`
and, on a log with identical content, `get_best_file_from_mcts`. -/
theorem selection_returns_first_minimum (parse : String → Option ℚ) (area_w : ℚ)
    (fs1 fs2 : FS) (k1 k2 : String) (b1 b2 : Nat) (lines : List String)
    (hfs1 : fs1 (ppoLogPath b1 k1) = some lines)
    (hfs2 : fs2 (mctsLogPath b2 k2) = some lines)
    (hne : lines ≠ [])
    (hwf : ∀ l ∈ lines, (lineScoreOf parse area_w l).isSome = true) :
    ∃ k : Fin lines.length,
      get_best_file_from_ppo parse area_w fs1 k1 b1 =
        Except.ok (some (idOf (lines.get k)), some (rawOf (lines.get k))) ∧
      get_best_file_from_mcts parse area_w fs2 k2 b2 =
        Except.ok (some (idOf (lines.get k)), some (rawOf (lines.get k))) ∧
      (∀ j : Fin lines.length,
        scoreD parse area_w (lines.get k) ≤ scoreD parse area_w (lines.get j)) ∧
      (∀ j : Fin lines.length, (j : Nat) < (k : Nat) →
        scoreD parse area_w (lines.get k) < scoreD parse area_w (lines.get j)) := by
  rcases ppoScan_characterize parse area_w lines hwf none none none with
    ⟨_, hall⟩ | ⟨k, heq, _, hmin, hfirst⟩
  · have hpos : 0 < lines.length := List.length_pos.mpr hne
    have := hall ⟨0, hpos⟩
    simp [ltInf] at this
  · refine ⟨k, ?_, ?_, hmin, hfirst⟩
    · simp only [get_best_file_from_ppo, hfs1, heq]
    · simp only [get_best_file_from_mcts, hfs2, ← ppoScan_eq_mctsScan, heq]

/-- Witness for C1 at a concrete three-record log whose minimum is attained
by the second and third records: all hypotheses hold and the theorem applies. -/
theorem selection_returns_first_minimum_witness :
    (demoFS (ppoLogPath 16 "k") = some demoLog ∧
     demoFS (mctsLogPath 32 "k") = some demoLog ∧
     demoLog ≠ [] ∧
     ∀ l ∈ demoLog, (lineScoreOf parseNatQ 1 l).isSome = true) ∧
    ∃ k : Fin demoLog.length,
      get_best_file_from_ppo parseNatQ 1 demoFS "k" 16 =
        Except.ok (some (idOf (demoLog.get k)), some (rawOf (demoLog.get k))) ∧
      get_best_file_from_mcts parseNatQ 1 demoFS "k" 32 =
        Except.ok (some (idOf (demoLog.get k)), some (rawOf (demoLog.get k))) ∧
      (∀ j : Fin demoLog.length,
        scoreD parseNatQ 1 (demoLog.get k) ≤ scoreD parseNatQ 1 (demoLog.get j)) ∧
      (∀ j : Fin demoLog.length, (j : Nat) < (k : Nat) →
        scoreD parseNatQ 1 (demoLog.get k) < scoreD parseNatQ 1 (demoLog.get j)) :=
  ⟨⟨rfl, rfl, by decide, by decide⟩,
   selection_returns_first_minimum parseNatQ 1 demoFS demoFS "k" "k" 16 32 demoLog
     rfl rfl (by decide) (by decide)⟩

/-- C2: the adder extractor implements exactly the interleaved per-line
policy of the claim — comments containing `2` always dropped, the first
`input_bit` other comments kept independently of the marker flag, non-comment
lines kept from the first marker line onward. -/
theorem adder_extraction_interleaved_policy (input_bit : Nat) (src : List String) :
    save_adder_file_lines input_bit src 0 false = adderClaimSelection input_bit src :=
  save_adder_invariant input_bit src [] 0 (by simp)

/-- C3 counterexample: on a line that starts with the marker but does not
exactly equal it, the code stops copying (prefix test) while the claim
(exact-match test) would copy the entire file. -/
theorem mult_extraction_exact_match_refuted :
    save_mult_file_lines ["module adder(a,b,s); // tweaked"] ≠
      multClaimContent ["module adder(a,b,s); // tweaked"] := by decide

/-- C3 amended: `save_mult_file` copies the longest prefix of lines that do
not **start with** the adder-module marker and discards the rest; in
particular when no line starts with the marker, the whole file is copied. -/
theorem mult_extraction_stops_at_marker_start (src : List String) :
    save_mult_file_lines src =
      src.takeWhile (fun line => !(pyStartswith "module adder(a,b,s);" line)) :=
  save_mult_file_lines_eq_takeWhile src

/-- C8: multiplier-template extraction is idempotent on a fixed source name
and round key — the destination path is a function of the key alone, and a
second run overwrites it with byte-identical content, leaving the filesystem
unchanged. -/
theorem mult_extraction_idempotent (fs : FS) (name key : String) (fs' : FS)
    (h : save_mult_run fs name key = some fs') :
    save_mult_run fs' name key = some fs' :=
  save_mult_run_overwrite fs name key fs' h

/-- Witness for C8: a concrete run writes the template, and re-running on the
resulting filesystem is the identity. -/
theorem mult_extraction_idempotent_witness :
    save_mult_run demoSrcFS "f.v" "k" = some demoWritten ∧
    save_mult_run demoWritten "f.v" "k" = some demoWritten :=
  ⟨rfl, mult_extraction_idempotent demoSrcFS "f.v" "k" demoWritten rfl⟩

/-- C10: the two selectors are extensionally equivalent — on two log files
with identical content (at their respective paths) they return identical
results. -/
theorem selectors_extensionally_equal (parse : String → Option ℚ) (area_w : ℚ)
    (fs1 fs2 : FS) (k1 k2 : String) (b1 b2 : Nat) (lines : List String)
    (h1 : fs1 (ppoLogPath b1 k1) = some lines)
    (h2 : fs2 (mctsLogPath b2 k2) = some lines) :
    get_best_file_from_ppo parse area_w fs1 k1 b1 =
      get_best_file_from_mcts parse area_w fs2 k2 b2 := by
  simp only [get_best_file_from_ppo, get_best_file_from_mcts, h1, h2]
  rw [ppoScan_eq_mctsScan]

/-- Witness for C10 on the concrete demonstration log. -/
theorem selectors_extensionally_equal_witness :
    (demoFS (ppoLogPath 16 "k") = some demoLog ∧
     demoFS (mctsLogPath 32 "k") = some demoLog) ∧
    get_best_file_from_ppo parseNatQ 1 demoFS "k" 16 =
      get_best_file_from_mcts parseNatQ 1 demoFS "k" 32 :=
  ⟨⟨rfl, rfl⟩,
   selectors_extensionally_equal parseNatQ 1 demoFS demoFS "k" "k" 16 32 demoLog rfl rfl⟩

/-- C6: if the stage-1 job exits non-zero on round 0, the run log is exactly
the round-0 header, one error line referencing round 0 with the captured
output, and the final total-time line; no template is written, stage 2 is
never invoked, and round 1 never starts. -/
theorem ppo_failure_round0_aborts_run (env : Env) (input_bit : Nat) (area_w : ℚ)
    (out : String) (hp : env.ppoJob 0 = (false, out)) :
    pymain env input_bit area_w =
      ⟨[LogLine.iter 0 (env.iterTime 0), LogLine.ppoErr 0 out, LogLine.total env.totalTime],
       [Ev.runPPO 0 none], false⟩ := by
  have hd := doRound_ppoFail env input_bit area_w 0 none out hp
  simp [pymain, runRounds, hd]

/-- Witness for C6 on a concrete environment whose stage-1 job always fails. -/
theorem ppo_failure_round0_aborts_run_witness :
    envFailPPO.ppoJob 0 = (false, "boom") ∧
    pymain envFailPPO 16 1 =
      ⟨[LogLine.iter 0 "0.00", LogLine.ppoErr 0 "boom", LogLine.total "9.99"],
       [Ev.runPPO 0 none], false⟩ :=
  ⟨rfl, ppo_failure_round0_aborts_run envFailPPO 16 1 "boom" rfl⟩

/-- C5 counterexample: with a present log holding one malformed record the
run dies on the uncaught exception — the run log holds only the round-0
header, with no diagnostic line for the failure (and no total-time line). -/
theorem malformed_record_crash_concrete :
    pymain envBadLog 16 1 =
      ⟨[LogLine.iter 0 "0.00"], [Ev.runPPO 0 none], true⟩ := by decide

/-- C5 amended: a malformed record makes the selector raise an exception the
controller does not catch (only `AssertionError` is caught): the process
dies with no diagnostic line written for the failure and no total-time line. -/
theorem malformed_record_crashes_without_diagnostic (env : Env) (input_bit : Nat)
    (area_w : ℚ) (o : String)
    (hp : env.ppoJob 0 = (true, o))
    (hsel : get_best_file_from_ppo env.parse area_w env.fs (roundKey env.timestamp 0)
      input_bit = Except.error SelErr.malformed) :
    pymain env input_bit area_w =
      ⟨[LogLine.iter 0 (env.iterTime 0)], [Ev.runPPO 0 none], true⟩ := by
  have hd := doRound_malformed env input_bit area_w 0 none o hp hsel
  simp [pymain, runRounds, hd]

/-- Witness for the amended C5 on the concrete malformed-log environment. -/
theorem malformed_record_crashes_without_diagnostic_witness :
    (envBadLog.ppoJob 0 = (true, "") ∧
     get_best_file_from_ppo envBadLog.parse 1 envBadLog.fs (roundKey envBadLog.timestamp 0) 16 =
       Except.error SelErr.malformed) ∧
    pymain envBadLog 16 1 = ⟨[LogLine.iter 0 "0.00"], [Ev.runPPO 0 none], true⟩ :=
  ⟨⟨rfl, rfl⟩, malformed_record_crashes_without_diagnostic envBadLog 16 1 "" rfl rfl⟩

/-- C4 counterexample: on a present but empty log the selector does **not**
fail with a "no records" condition — it succeeds with `(None, None)` — and
the enclosing run then dies on an uncaught exception rather than recording
and aborting. -/
theorem empty_log_selection_succeeds :
    get_best_file_from_ppo parseNatQ 1 (fun _ => some []) "k" 16 =
      Except.ok (none, none) ∧
    (pymain envEmptyLog 16 1).crash = true :=
  ⟨rfl, rfl⟩

/-- C4 amended: on a nonexistent log path selection fails with the
`AssertionError` "does not exist" message, which the controller records in
the run log and then aborts without crashing; on a present empty log
selection succeeds with no winner (`None`, logged as `"None"`), after which
the controller crashes uncaught in `save_mult_file`. -/
theorem selector_missing_vs_empty_log (env : Env) (input_bit : Nat) (area_w : ℚ)
    (o : String) (hp : env.ppoJob 0 = (true, o)) :
    (env.fs (ppoLogPath input_bit (roundKey env.timestamp 0)) = none →
      pymain env input_bit area_w =
        ⟨[LogLine.iter 0 (env.iterTime 0),
          LogLine.assertMsg ("[ERROR] " ++
            pathStr (ppoLogPath input_bit (roundKey env.timestamp 0)) ++ " does not exist."),
          LogLine.total env.totalTime],
         [Ev.runPPO 0 none], false⟩) ∧
    (env.fs (ppoLogPath input_bit (roundKey env.timestamp 0)) = some [] →
      pymain env input_bit area_w =
        ⟨[LogLine.iter 0 (env.iterTime 0), LogLine.ppoWin "None"],
         [Ev.runPPO 0 none], true⟩) := by
  constructor
  · intro hfs
    have hsel : get_best_file_from_ppo env.parse area_w env.fs (roundKey env.timestamp 0)
        input_bit = Except.error (SelErr.notFound ("[ERROR] " ++
          pathStr (ppoLogPath input_bit (roundKey env.timestamp 0)) ++ " does not exist.")) := by
      simp only [get_best_file_from_ppo, hfs]
    have hd := doRound_notFound env input_bit area_w 0 none o _ hp hsel
    simp [pymain, runRounds, hd]
  · intro hfs
    have hsel : get_best_file_from_ppo env.parse area_w env.fs (roundKey env.timestamp 0)
        input_bit = Except.ok (none, none) := by
      simp only [get_best_file_from_ppo, hfs]
      rfl
    have hd := doRound_selNone env input_bit area_w 0 none o none hp hsel
    simpa [pyStr] using (by simp [pymain, runRounds, hd] :
      pymain env input_bit area_w =
        ⟨[LogLine.iter 0 (env.iterTime 0), LogLine.ppoWin (pyStr none)],
         [Ev.runPPO 0 none], true⟩)

/-- Witness for the amended C4: the missing-log branch on one environment and
the empty-log branch on another. -/
theorem selector_missing_vs_empty_log_witness :
    (envNoLog.ppoJob 0 = (true, "") ∧ envEmptyLog.ppoJob 0 = (true, "")) ∧
    pymain envNoLog 16 1 =
      ⟨[LogLine.iter 0 "0.00",
        LogLine.assertMsg
          "[ERROR] /content/ArithmeticTree/mult_logs/mult_16b_ts-0.log does not exist.",
        LogLine.total "9.99"],
       [Ev.runPPO 0 none], false⟩ ∧
    pymain envEmptyLog 16 1 =
      ⟨[LogLine.iter 0 "0.00", LogLine.ppoWin "None"], [Ev.runPPO 0 none], true⟩ :=
  ⟨⟨rfl, rfl⟩,
   (selector_missing_vs_empty_log envNoLog 16 1 "" rfl).1 rfl,
   (selector_missing_vs_empty_log envEmptyLog 16 1 "" rfl).2 rfl⟩

/-- C7 counterexample: on a concrete failure-free run the per-round keys used
for the stage invocations are the consecutive list `[0, 1, 2]` — no
alternate slot is skipped (the in-loop `i += 1` is dead, `range` rebinds
`i`). -/
theorem round_keys_consecutive_concrete :
    ppoIdxs (pymain envGood 2 1).evs = [0, 1, 2] ∧
    (pymain envGood 2 1).crash = false := by
  exact ⟨rfl, rfl⟩

/-- C7 amended: in every failure-free run the loop executes the configured
3 rounds with consecutive keys 0, 1, 2 — the second in-loop increment of the
round counter has no effect on the iteration keys. -/
theorem round_keys_consecutive (env : Env) (input_bit : Nat) (area_w : ℚ)
    (hok : ∀ i, i < 3 → RoundOK env input_bit area_w i) :
    ppoIdxs (pymain env input_bit area_w).evs = [0, 1, 2] ∧
    (pymain env input_bit area_w).crash = false := by
  obtain ⟨lg0, ev0, a0, hd0, hi0⟩ := doRound_cont env input_bit area_w 0 (hok 0 (by omega)) none
  obtain ⟨lg1, ev1, a1, hd1, hi1⟩ := doRound_cont env input_bit area_w 1 (hok 1 (by omega)) (some a0)
  obtain ⟨lg2, ev2, a2, hd2, hi2⟩ := doRound_cont env input_bit area_w 2 (hok 2 (by omega)) (some a1)
  have hrun : runRounds env input_bit area_w 3 0 none =
      (lg0 ++ (lg1 ++ lg2), ev0 ++ (ev1 ++ ev2), false) := by
    simp [runRounds, hd0, hd1, hd2]
  constructor
  · simp [pymain, hrun, ppoIdxs_append, hi0, hi1, hi2]
  · simp [pymain, hrun]

/-- Witness for the amended C7 on the concrete failure-free environment. -/
theorem round_keys_consecutive_witness :
    (∀ i, i < 3 → RoundOK envGood 2 1 i) ∧
    ppoIdxs (pymain envGood 2 1).evs = [0, 1, 2] ∧
    (pymain envGood 2 1).crash = false := by
  have hok : ∀ i, i < 3 → RoundOK envGood 2 1 i := by
    intro i _
    exact ⟨rfl, rfl, ⟨"f.v", "f.v\t1\t1\t1\t1", rfl, rfl⟩,
           ⟨"f.v", "f.v\t1\t1\t1\t1", rfl, rfl⟩⟩
  exact ⟨hok, (round_keys_consecutive envGood 2 1 hok).1,
         (round_keys_consecutive envGood 2 1 hok).2⟩

/-- C9 counterexample: for a successfully selected stage-1 winner the run log
gains the line `"PPO:\t<record>"` (with a colon) and no line
`"PPO\t<record>"` as the claim states it. -/
theorem ppo_line_has_colon :
    (((doRound envGood 2 1 0 none).1.map LogLine.text).contains
        "PPO:\tf.v\t1\t1\t1\t1\n") = true ∧
    (((doRound envGood 2 1 0 none).1.map LogLine.text).contains
        "PPO\tf.v\t1\t1\t1\t1\n") = false := by decide

/-- C9 amended: for every successfully selected winner the appended run-log
line is exactly `"PPO:"` + tab + record (stage 1) and `"MCTS"` + tab +
record (stage 2), each with a trailing newline. -/
theorem winner_line_formats (env : Env) (input_bit : Nat) (area_w : ℚ) (i : Nat)
    (prev : Option String) (o o2 f d f2 d2 : String) (src src2 : List String)
    (hp : env.ppoJob i = (true, o))
    (hsel : get_best_file_from_ppo env.parse area_w env.fs (roundKey env.timestamp i)
      input_bit = Except.ok (some f, some d))
    (hsrc : env.fs (multSourcePath f) = some src)
    (hm : env.mctsJob i = (true, o2))
    (hsel2 : get_best_file_from_mcts env.parse area_w env.fs (roundKey env.timestamp i)
      (input_bit * 2) = Except.ok (some f2, some d2))
    (hsrc2 : env.fs (adderSourcePath f2) = some src2) :
    (doRound env input_bit area_w i prev).1 =
      [LogLine.iter i (env.iterTime i), LogLine.ppoWin d, LogLine.mctsWin d2] ∧
    (LogLine.ppoWin d).text = "PPO:\t" ++ d ++ "\n" ∧
    (LogLine.mctsWin d2).text = "MCTS\t" ++ d2 ++ "\n" := by
  rw [doRound_success env input_bit area_w i prev o o2 f d f2 d2 src src2 hp hsel hsrc
    hm hsel2 hsrc2]
  exact ⟨rfl, rfl, rfl⟩

/-- Witness for the amended C9 on the concrete failure-free environment. -/
theorem winner_line_formats_witness :
    (envGood.ppoJob 0 = (true, "") ∧
     get_best_file_from_ppo envGood.parse 1 envGood.fs (roundKey envGood.timestamp 0) 2 =
       Except.ok (some "f.v", some "f.v\t1\t1\t1\t1") ∧
     envGood.fs (multSourcePath "f.v") = some demoGood ∧
     envGood.mctsJob 0 = (true, "") ∧
     get_best_file_from_mcts envGood.parse 1 envGood.fs (roundKey envGood.timestamp 0) (2 * 2) =
       Except.ok (some "f.v", some "f.v\t1\t1\t1\t1") ∧
     envGood.fs (adderSourcePath "f.v") = some demoGood) ∧
    (doRound envGood 2 1 0 none).1 =
      [LogLine.iter 0 "0.00", LogLine.ppoWin "f.v\t1\t1\t1\t1",
       LogLine.mctsWin "f.v\t1\t1\t1\t1"] ∧
    (LogLine.ppoWin "f.v\t1\t1\t1\t1").text = "PPO:\t" ++ "f.v\t1\t1\t1\t1" ++ "\n" ∧
    (LogLine.mctsWin "f.v\t1\t1\t1\t1").text = "MCTS\t" ++ "f.v\t1\t1\t1\t1" ++ "\n" :=
  ⟨⟨rfl, rfl, rfl, rfl, rfl, rfl⟩,
   winner_line_formats envGood 2 1 0 none "" "" "f.v" "f.v\t1\t1\t1\t1" "f.v"
     "f.v\t1\t1\t1\t1" demoGood demoGood rfl rfl rfl rfl rfl rfl⟩
